import Mathlib

/-!
Shallow embedding of the ChatRoom WebSocket server (the room registry and
per-connection dispatcher) together with proofs of the specified properties.

The JavaScript runtime pieces are modelled as follows:
* a transport connection handle is an opaque `Nat`;
* the two process-global registries `allSockets` and `rooms` form `ServerState`;
* the JS `Map` over room identifiers is an association list observed only
  through get, set, has and delete, with the JS replace-in-place semantics;
* `Math.random()` draws are supplied by explicit oracle arguments
  (a bounded draw `Math.floor(Math.random() * n)` is modelled as `x % n`);
* `socket.send(JSON.stringify(...))` is recorded as a `Send` output;
* a thrown JS exception is `Except.error` (there is no try/catch in the
  message handler, so a throw escapes the handler and kills the process);
* the wall clock (`new Date()` and its ISO rendering) is an ambient `now`
  string passed to each dispatch.
-/

namespace ChatRoom

/-- One entry of `allSockets`: a connection bound to a room, mirroring the
`User` interface of the source. -/
structure User where
  socket : Nat
  room : String
  userId : String
deriving DecidableEq, Repr

/-- A chat room, mirroring the `Room` interface of the source. -/
structure Room where
  id : String
  users : List User
  createdAt : String
deriving DecidableEq, Repr

/-- The JS `Map<string, Room>` holding the rooms, as an association list. -/
abbrev RoomMap := List (String × Room)

/-- `rooms.get(k)` (first entry with key `k`). -/
def mapGet (m : RoomMap) (k : String) : Option Room :=
  (m.find? (fun e => e.1 == k)).map (fun e => e.2)

/-- `rooms.has(k)`. -/
def mapHas (m : RoomMap) (k : String) : Bool :=
  (m.find? (fun e => e.1 == k)).isSome

/-- `rooms.set(k, v)`: replace the entry in place if the key is present,
append a fresh entry otherwise. -/
def mapSet : RoomMap → String → Room → RoomMap
  | [], k, v => [(k, v)]
  | e :: rest, k, v => if e.1 == k then (k, v) :: rest else e :: mapSet rest k v

/-- `rooms.delete(k)`: remove the entry with key `k`. -/
def mapDelete : RoomMap → String → RoomMap
  | [], _ => []
  | e :: rest, k => if e.1 == k then rest else e :: mapDelete rest k

/-- The process-wide mutable registry: `allSockets` and `rooms`. -/
structure ServerState where
  allSockets : List User
  rooms : RoomMap
deriving DecidableEq, Repr

/-- The registry at process start: both collections empty. -/
def initialState : ServerState := ⟨[], []⟩

/-- The `payload` object of an inbound envelope; fields the sender did not
supply are `none` (JS `undefined`). -/
structure PayloadObj where
  roomId : Option String := none
  message : Option String := none
deriving DecidableEq, Repr

/-- An inbound transport payload: either text that `JSON.parse` rejects, or a
parsed object with optional `type` and `payload` fields. -/
inductive Inbound where
  | notJson
  | obj (type : Option String) (payload : Option PayloadObj)
deriving DecidableEq, Repr

/-- An outbound envelope, one constructor per `type` the server emits. -/
inductive OutMsg where
  | roomCreated (roomId userId : String)
  | roomJoined (roomId userId : String) (userCount : Nat)
  | userJoined (userCount : Nat)
  | userLeft (userCount : Nat)
  | message (message : Option String) (userId : String) (timestamp : String)
  | error (message : String)
deriving DecidableEq, Repr

/-- One `socket.send` call: destination connection handle and envelope. -/
structure Send where
  dest : Nat
  msg : OutMsg
deriving DecidableEq, Repr

/-- A JS exception escaping the dispatcher (there is no try/catch around the
message handler), or exhaustion of the modelled randomness supply standing in
for the unbounded regeneration loop. -/
inductive JsError where
  | jsonParseError
  | typeError
  | oracleExhausted
deriving DecidableEq, Repr

/-! ### Identifier generators -/

/-- The `chars` alphabet of `generateRoomId`. -/
def roomChars : List Char :=
  "ABCDEFGHIJKLMNOPQRSTUVWXYZabcdefghijklmnopqrstuvwxyz0123456789".toList

/-- `chars.charAt(n)` (the default is never reached on in-range indices). -/
def charAt (n : Nat) : Char := roomChars.getD n 'A'

/-- The `Math.random()` draws consumed by one attempt of `generateRoomId`:
eight character draws and the three potential character-class fix-up draws. -/
structure Attempt where
  cs : List Nat
  ru : Nat
  rl : Nat
  rd : Nat
deriving DecidableEq, Repr

/-- One attempt of `generateRoomId`: eight random characters from the
62-symbol alphabet, then the three class fix-ups of the source, each of which
drops the first character and appends one of the missing class. -/
def genOnce (a : Attempt) : List Char :=
  let result := (List.range 8).map (fun i => charAt (a.cs.getD i 0 % 62))
  let r1 := if result.any Char.isUpper then result
            else result.drop 1 ++ [charAt (a.ru % 26)]
  let r2 := if r1.any Char.isLower then r1
            else r1.drop 1 ++ [charAt (26 + a.rl % 26)]
  let r3 := if r2.any Char.isDigit then r2
            else r2.drop 1 ++ [charAt (52 + a.rd % 10)]
  r3

/-- `generateRoomId`: retry attempts until the candidate is not already a key
of `rooms`; `none` models the unbounded loop outrunning the supplied
randomness. -/
def generateRoomId (rooms : RoomMap) : List Attempt → Option String
  | [] => none
  | a :: rest =>
    let result : String := ⟨genOnce a⟩
    if mapHas rooms result then generateRoomId rooms rest else some result

/-- The base-36 digit alphabet used by `Number.prototype.toString(36)`. -/
def base36Chars : List Char := "0123456789abcdefghijklmnopqrstuvwxyz".toList

/-- Rendering of one base-36 fraction digit. -/
def base36Char (n : Nat) : Char := base36Chars.getD (n % 36) '0'

/-- `Math.random().toString(36)`: the drawn float lies in [0,1), so the
rendering is the single character "0" when the (finite, trailing-zero
trimmed) base-36 fraction expansion `digits` is empty, and "0." followed by
the expansion otherwise. -/
def randToString36 (digits : List Nat) : List Char :=
  if digits.isEmpty then ['0']
  else '0' :: '.' :: digits.map base36Char

/-- JS `s.substring(start, stop)`: the characters at indices in
[start, stop). -/
def jsSubstring (s : List Char) (start stop : Nat) : List Char :=
  (s.take stop).drop start

/-- `generateUserId`: `Math.random().toString(36).substring(2, 15)`. -/
def generateUserId (digits : List Nat) : String :=
  ⟨jsSubstring (randToString36 digits) 2 15⟩

/-- The randomness consumed by one dispatch: attempts for `generateRoomId`
and the fraction expansion for `generateUserId`. -/
structure Rand where
  roomAttempts : List Attempt
  userDigits : List Nat
deriving DecidableEq, Repr

/-! ### Dispatcher -/

/-- The `createRoom` branch of the message handler. -/
def handleCreateRoom (st : ServerState) (conn : Nat) (rand : Rand) (now : String) :
    Except JsError (ServerState × List Send) :=
  match generateRoomId st.rooms rand.roomAttempts with
  | none => Except.error JsError.oracleExhausted
  | some roomId =>
    let userId := generateUserId rand.userDigits
    let user : User := ⟨conn, roomId, userId⟩
    let room : Room := ⟨roomId, [user], now⟩
    Except.ok
      ({ allSockets := st.allSockets ++ [user], rooms := mapSet st.rooms roomId room },
       [⟨conn, OutMsg.roomCreated roomId userId⟩])

/-- The `joinRoom` branch of the message handler: `rooms.has(undefined)` is
false, so a missing `roomId` field also lands in the error arm. -/
def handleJoinRoom (st : ServerState) (conn : Nat) (p : PayloadObj) (rand : Rand) :
    ServerState × List Send :=
  let userId := generateUserId rand.userDigits
  match p.roomId with
  | none => (st, [⟨conn, OutMsg.error "Room not found"⟩])
  | some roomId =>
    match mapGet st.rooms roomId with
    | none => (st, [⟨conn, OutMsg.error "Room not found"⟩])
    | some room =>
      let notifications := room.users.map
        (fun u => (⟨u.socket, OutMsg.userJoined (room.users.length + 1)⟩ : Send))
      let user : User := ⟨conn, roomId, userId⟩
      let room2 := { room with users := room.users ++ [user] }
      ({ allSockets := st.allSockets ++ [user], rooms := mapSet st.rooms roomId room2 },
       notifications ++ [⟨conn, OutMsg.roomJoined roomId userId room2.users.length⟩])

/-- The `chat` branch of the message handler. The source guards the lookup
with the truthiness of `currentUserRoom`, so a connection recorded with the
empty-string room identifier is also a silent no-op. -/
def handleChat (st : ServerState) (conn : Nat) (p : PayloadObj) (now : String) :
    ServerState × List Send :=
  match st.allSockets.find? (fun u => u.socket == conn) with
  | none => (st, [])
  | some user =>
    if user.room ≠ "" then
      match mapGet st.rooms user.room with
      | some room =>
        (st, room.users.map (fun u =>
          (⟨u.socket, OutMsg.message p.message user.userId now⟩ : Send)))
      | none => (st, [])
    else (st, [])

/-- The `socket.on("message")` handler. `JSON.parse` throws on text that is
not JSON; the `joinRoom` and `chat` branches dereference
`parsedMessage.payload`, which throws when the field is absent. The three
type tests of the source are sequential `if` statements over one string, so
they are mutually exclusive and modelled as a chain. -/
def handleMessage (st : ServerState) (conn : Nat) (inb : Inbound) (rand : Rand)
    (now : String) : Except JsError (ServerState × List Send) :=
  match inb with
  | Inbound.notJson => Except.error JsError.jsonParseError
  | Inbound.obj ty payload =>
    if ty = some "createRoom" then
      handleCreateRoom st conn rand now
    else if ty = some "joinRoom" then
      match payload with
      | none => Except.error JsError.typeError
      | some p => Except.ok (handleJoinRoom st conn p rand)
    else if ty = some "chat" then
      match payload with
      | none => Except.error JsError.typeError
      | some p => Except.ok (handleChat st conn p now)
    else
      Except.ok (st, [])

/-- `findIndex` followed by `splice(i, 1)`: locate the first element
satisfying the predicate and return it together with the remainder. -/
def findRemove (p : α → Bool) : List α → Option (α × List α)
  | [] => none
  | x :: xs =>
    if p x then some (x, xs)
    else
      match findRemove p xs with
      | none => none
      | some (y, ys) => some (y, x :: ys)

/-- The `socket.on("close")` handler: drop the record from `allSockets`,
drop the member from its room, notify the remaining members with the
post-removal count, and delete the room when it became empty. -/
def handleClose (st : ServerState) (conn : Nat) : ServerState × List Send :=
  match findRemove (fun u => u.socket == conn) st.allSockets with
  | none => (st, [])
  | some (user, restSockets) =>
    match mapGet st.rooms user.room with
    | none => ({ st with allSockets := restSockets }, [])
    | some room =>
      match findRemove (fun u => u.socket == conn) room.users with
      | none => ({ st with allSockets := restSockets }, [])
      | some (_, remaining) =>
        let notifications := remaining.map
          (fun u => (⟨u.socket, OutMsg.userLeft remaining.length⟩ : Send))
        if remaining.isEmpty then
          ({ allSockets := restSockets, rooms := mapDelete st.rooms user.room },
           notifications)
        else
          ({ allSockets := restSockets,
             rooms := mapSet st.rooms user.room { room with users := remaining } },
           notifications)

/-! ### Event traces -/

/-- One transport-level event delivered to the server. -/
inductive Event where
  | msg (conn : Nat) (inb : Inbound) (rand : Rand) (now : String)
  | close (conn : Nat)
deriving DecidableEq, Repr

/-- The registry after one event. A dispatch that throws kills the process;
keeping the pre-event state for that case only adds states that were already
reachable, so every invariant proved over these runs covers the real runs. -/
def stepEvent (st : ServerState) : Event → ServerState
  | Event.msg conn inb rand now =>
    match handleMessage st conn inb rand now with
    | Except.ok (st2, _) => st2
    | Except.error _ => st
  | Event.close conn => (handleClose st conn).1

/-- The registry after a trace of events starting from `st`. -/
def runEvents (st : ServerState) : List Event → ServerState
  | [] => st
  | e :: es => runEvents (stepEvent st e) es

/-- The room identifiers announced by `roomCreated` envelopes. -/
def createdIds (outs : List Send) : List String :=
  outs.filterMap (fun s =>
    match s.msg with
    | OutMsg.roomCreated rid _ => some rid
    | _ => none)

/-- Run a sequence of `createRoom` dispatches (one oracle, connection and
clock value per call) and collect the returned room identifiers. -/
def runCreates (st : ServerState) : List (Rand × Nat × String) → ServerState × List String
  | [] => (st, [])
  | (r, conn, now) :: rest =>
    match handleMessage st conn (Inbound.obj (some "createRoom") none) r now with
    | Except.ok (st2, outs) =>
      let next := runCreates st2 rest
      (next.1, createdIds outs ++ next.2)
    | Except.error _ => runCreates st rest

/-- Short form of the inbound `joinRoom` envelope. -/
def joinMsg (rid : String) : Inbound :=
  Inbound.obj (some "joinRoom") (some { roomId := some rid })

/-- Short form of the inbound `chat` envelope. -/
def chatMsg (text : String) : Inbound :=
  Inbound.obj (some "chat") (some { message := some text })

/-- Short form of the inbound `createRoom` envelope. -/
def createMsg : Inbound := Inbound.obj (some "createRoom") none

/-- An oracle supplying no randomness (sufficient for joins and chats). -/
def noRand : Rand := ⟨[], []⟩

/-- Number of `allSockets` records held by the connection `conn`. -/
def recordCount (conn : Nat) (st : ServerState) : Nat :=
  (st.allSockets.filter (fun u => u.socket == conn)).length

/-- Whether an inbound envelope is a binding request (`createRoom` or
`joinRoom`), the only envelopes that can add an `allSockets` record. -/
def isBindMsg : Inbound → Bool
  | Inbound.obj ty _ => ty == some "createRoom" || ty == some "joinRoom"
  | Inbound.notJson => false

/-- Number of binding envelopes the connection `conn` sends in a trace. -/
def bindRequests (conn : Nat) : List Event → Nat
  | [] => 0
  | Event.msg c inb _ _ :: rest =>
    (if c == conn && isBindMsg inb then 1 else 0) + bindRequests conn rest
  | Event.close _ :: rest => bindRequests conn rest

/-- The keys of the rooms map. -/
def mapKeys (m : RoomMap) : List String := m.map (fun e => e.1)

/-- Key uniqueness of the rooms map (what the JS `Map` guarantees). -/
def keysNodup (m : RoomMap) : Prop := (mapKeys m).Nodup

/-- The room identifier alphabet of the specification. -/
def isRoomIdChar (c : Char) : Bool := c.isUpper || c.isLower || c.isDigit

/-- The user identifier alphabet: base-36 digits rendered in lowercase. -/
def isUserIdChar (c : Char) : Bool := c.isLower || c.isDigit

/-- Well-formedness of the rooms map: unique keys and no registered room with
an empty member list. -/
def roomsMapWF (m : RoomMap) : Prop :=
  keysNodup m ∧ ∀ k r, mapGet m k = some r → r.users ≠ []

/-- Well-formedness of the registry. -/
def roomsWF (st : ServerState) : Prop := roomsMapWF st.rooms

/-- The outputs of a dispatch that returned normally (empty on a throw). -/
def okOuts (r : Except JsError (ServerState × List Send)) : List Send :=
  match r with
  | Except.ok (_, outs) => outs
  | Except.error _ => []

/-- An attempt oracle drawing the character index `n` eight times. -/
def attemptConst (n : Nat) : Attempt := ⟨List.replicate 8 n, 0, 0, 0⟩

/-- Oracle whose room attempt yields the identifier "AAAAAAa0". -/
def rand0 : Rand := ⟨[attemptConst 0], []⟩

/-- Oracle whose room attempt yields the identifier "BBBBBBa0". -/
def rand1 : Rand := ⟨[attemptConst 1], []⟩

/-- The registry after connection 0 creates a room (identifier "AAAAAAa0"). -/
def oneRoomState : ServerState :=
  runEvents initialState [Event.msg 0 createMsg rand0 "t0"]

/-- Connection 0 bound to the room "AAAAAAa0". -/
def demoUser : User := ⟨0, "AAAAAAa0", ""⟩

/-- Connection 1 bound to the room "AAAAAAa0". -/
def demoUser1 : User := ⟨1, "AAAAAAa0", "u1"⟩

/-- A one-member room held by connection 0. -/
def demoRoom : Room := ⟨"AAAAAAa0", [demoUser], "t0"⟩

/-- A two-member room held by connections 0 and 1. -/
def demoRoom2 : Room := ⟨"AAAAAAa0", [demoUser, demoUser1], "t0"⟩

/-- A registry with the one-member room registered. -/
def demoState : ServerState := ⟨[demoUser], [("AAAAAAa0", demoRoom)]⟩

/-- A registry with the two-member room registered. -/
def demoState2 : ServerState := ⟨[demoUser, demoUser1], [("AAAAAAa0", demoRoom2)]⟩

/-! ### Association-list lemmas -/

theorem mapGet_cons (e : String × Room) (rest : RoomMap) (k : String) :
    mapGet (e :: rest) k = if e.1 = k then some e.2 else mapGet rest k := by
  by_cases h : e.1 = k
  · simp [mapGet, List.find?_cons_of_pos, h]
  · simp [mapGet, List.find?_cons_of_neg, h]

theorem mapGet_eq_none_of_not_mem (m : RoomMap) (k : String) (h : k ∉ mapKeys m) :
    mapGet m k = none := by
  induction m with
  | nil => rfl
  | cons e rest ih =>
    simp only [mapKeys, List.map_cons, List.mem_cons, not_or] at h
    rw [mapGet_cons, if_neg (fun he => h.1 he.symm)]
    exact ih h.2

theorem mapGet_mapSet_self (m : RoomMap) (k : String) (v : Room) :
    mapGet (mapSet m k v) k = some v := by
  induction m with
  | nil => simp [mapSet, mapGet_cons]
  | cons e rest ih =>
    by_cases h : e.1 = k
    · simp [mapSet, h, mapGet_cons]
    · simp [mapSet, h, mapGet_cons, ih]

theorem mapGet_mapSet_ne (m : RoomMap) (k k2 : String) (v : Room) (h : k2 ≠ k) :
    mapGet (mapSet m k v) k2 = mapGet m k2 := by
  have h2 : ¬ (k = k2) := fun hh => h hh.symm
  induction m with
  | nil => simp [mapSet, mapGet_cons, h2]
  | cons e rest ih =>
    by_cases he : e.1 = k
    · simp [mapSet, he, mapGet_cons, h2]
    · simp [mapSet, he, mapGet_cons, ih]

theorem mem_mapKeys_mapSet (m : RoomMap) (k k2 : String) (v : Room) :
    k2 ∈ mapKeys (mapSet m k v) ↔ k2 = k ∨ k2 ∈ mapKeys m := by
  induction m with
  | nil => simp [mapSet, mapKeys]
  | cons e rest ih =>
    by_cases he : e.1 = k
    · subst he
      simp [mapSet, mapKeys]
    · rw [show mapSet (e :: rest) k v = e :: mapSet rest k v from by simp [mapSet, he]]
      rw [mapKeys, mapKeys]
      simp only [List.map_cons, List.mem_cons]
      rw [show (List.map (fun e => e.1) (mapSet rest k v)) = mapKeys (mapSet rest k v) from rfl]
      rw [show (List.map (fun e => e.1) rest) = mapKeys rest from rfl]
      rw [ih]
      tauto

theorem keysNodup_mapSet (m : RoomMap) (k : String) (v : Room) (h : keysNodup m) :
    keysNodup (mapSet m k v) := by
  induction m with
  | nil => simp [keysNodup, mapSet, mapKeys]
  | cons e rest ih =>
    rw [keysNodup, mapKeys] at h
    simp only [List.map_cons, List.nodup_cons] at h
    by_cases he : e.1 = k
    · subst he
      rw [keysNodup, show mapSet (e :: rest) e.1 v = (e.1, v) :: rest from by simp [mapSet]]
      rw [mapKeys]
      simp only [List.map_cons, List.nodup_cons]
      exact ⟨h.1, h.2⟩
    · rw [keysNodup, show mapSet (e :: rest) k v = e :: mapSet rest k v from by simp [mapSet, he]]
      rw [mapKeys]
      simp only [List.map_cons, List.nodup_cons]
      refine ⟨fun hmem => ?_, ih h.2⟩
      rcases (mem_mapKeys_mapSet rest k e.1 v).1 hmem with h1 | h1
      · exact he h1
      · exact h.1 h1

theorem mapKeys_mapDelete_sublist (m : RoomMap) (k : String) :
    (mapKeys (mapDelete m k)).Sublist (mapKeys m) := by
  induction m with
  | nil => simp [mapDelete]
  | cons e rest ih =>
    by_cases he : e.1 = k
    · rw [show mapDelete (e :: rest) k = rest from by simp [mapDelete, he]]
      exact List.sublist_cons_self _ _
    · rw [show mapDelete (e :: rest) k = e :: mapDelete rest k from by simp [mapDelete, he]]
      exact List.Sublist.cons₂ _ ih

theorem keysNodup_mapDelete (m : RoomMap) (k : String) (h : keysNodup m) :
    keysNodup (mapDelete m k) :=
  h.sublist (mapKeys_mapDelete_sublist m k)

theorem mapGet_mapDelete_self (m : RoomMap) (k : String) (h : keysNodup m) :
    mapGet (mapDelete m k) k = none := by
  induction m with
  | nil => rfl
  | cons e rest ih =>
    rw [keysNodup, mapKeys] at h
    simp only [List.map_cons, List.nodup_cons] at h
    by_cases he : e.1 = k
    · rw [show mapDelete (e :: rest) k = rest from by simp [mapDelete, he]]
      refine mapGet_eq_none_of_not_mem rest k ?_
      rw [← he]
      exact h.1
    · rw [show mapDelete (e :: rest) k = e :: mapDelete rest k from by simp [mapDelete, he]]
      rw [mapGet_cons, if_neg he]
      exact ih h.2

theorem mapGet_mapDelete_ne (m : RoomMap) (k k2 : String) (h : k2 ≠ k) :
    mapGet (mapDelete m k) k2 = mapGet m k2 := by
  induction m with
  | nil => rfl
  | cons e rest ih =>
    by_cases he : e.1 = k
    · rw [show mapDelete (e :: rest) k = rest from by simp [mapDelete, he]]
      rw [mapGet_cons, if_neg (by intro hh; rw [he] at hh; exact h hh.symm)]
    · rw [show mapDelete (e :: rest) k = e :: mapDelete rest k from by simp [mapDelete, he]]
      rw [mapGet_cons, mapGet_cons, ih]

theorem mapHas_eq_isSome (m : RoomMap) (k : String) :
    mapHas m k = (mapGet m k).isSome := by
  cases hf : m.find? (fun e => e.1 == k) <;> simp [mapHas, mapGet, hf]

theorem mapHas_mapSet (m : RoomMap) (k k2 : String) (v : Room) :
    mapHas (mapSet m k v) k2 = (k2 == k || mapHas m k2) := by
  by_cases h : k2 = k
  · subst h
    simp [mapHas_eq_isSome, mapGet_mapSet_self]
  · simp [mapHas_eq_isSome, mapGet_mapSet_ne _ _ _ _ h, h]

/-! ### findRemove lemmas -/

theorem findRemove_perm {p : α → Bool} {l : List α} {x : α} {r : List α}
    (h : findRemove p l = some (x, r)) : l.Perm (x :: r) := by
  induction l generalizing r with
  | nil => simp [findRemove] at h
  | cons a as ih =>
    rw [findRemove] at h
    by_cases ha : p a
    · rw [if_pos ha] at h
      obtain ⟨rfl, rfl⟩ : a = x ∧ as = r := by
        injection h with h2
        injection h2 with h3 h4
        exact ⟨h3, h4⟩
      exact List.Perm.refl _
    · rw [if_neg ha] at h
      cases hf : findRemove p as with
      | none => rw [hf] at h; exact absurd h (by simp)
      | some pr =>
        obtain ⟨y, ys⟩ := pr
        rw [hf] at h
        obtain ⟨h3, h4⟩ : y = x ∧ a :: ys = r := by
          injection h with h2
          injection h2 with h3 h4
          exact ⟨h3, h4⟩
        subst h3
        subst h4
        exact (List.Perm.cons a (ih hf)).trans (List.Perm.swap y a ys)

theorem findRemove_length {p : α → Bool} {l : List α} {x : α} {r : List α}
    (h : findRemove p l = some (x, r)) : l.length = r.length + 1 := by
  simpa using (findRemove_perm h).length_eq

theorem filter_length_le_of_findRemove {p q : α → Bool} {l : List α} {x : α}
    {r : List α} (h : findRemove q l = some (x, r)) :
    (r.filter p).length ≤ (l.filter p).length := by
  rw [((findRemove_perm h).filter p).length_eq]
  by_cases hx : p x <;> simp [List.filter_cons, hx]

/-! ### Dispatcher reduction lemmas -/

theorem handleMessage_create (st : ServerState) (conn : Nat) (rand : Rand)
    (now : String) :
    handleMessage st conn createMsg rand now = handleCreateRoom st conn rand now := rfl

theorem handleMessage_join (st : ServerState) (conn : Nat) (p : PayloadObj)
    (rand : Rand) (now : String) :
    handleMessage st conn (Inbound.obj (some "joinRoom") (some p)) rand now
      = Except.ok (handleJoinRoom st conn p rand) := rfl

theorem handleMessage_chat_red (st : ServerState) (conn : Nat) (p : PayloadObj)
    (rand : Rand) (now : String) :
    handleMessage st conn (Inbound.obj (some "chat") (some p)) rand now
      = Except.ok (handleChat st conn p now) := rfl

theorem handleChat_fst (st : ServerState) (conn : Nat) (p : PayloadObj)
    (now : String) : (handleChat st conn p now).1 = st := by
  rw [handleChat]
  split
  · rfl
  · split
    · split
      · rfl
      · rfl
    · rfl

theorem handleJoinRoom_cases (st : ServerState) (conn : Nat) (p : PayloadObj)
    (rand : Rand) (st2 : ServerState) (outs : List Send)
    (h : handleJoinRoom st conn p rand = (st2, outs)) :
    st2 = st ∨
    (∃ rid room, p.roomId = some rid ∧ mapGet st.rooms rid = some room ∧
      st2 = { allSockets :=
                st.allSockets ++ [⟨conn, rid, generateUserId rand.userDigits⟩],
              rooms := mapSet st.rooms rid
                { room with users :=
                    room.users ++ [⟨conn, rid, generateUserId rand.userDigits⟩] } }) := by
  rw [handleJoinRoom] at h
  cases hrid : p.roomId with
  | none =>
    simp only [hrid] at h
    injection h with h1 h2
    exact Or.inl h1.symm
  | some rid =>
    simp only [hrid] at h
    cases hget : mapGet st.rooms rid with
    | none =>
      simp only [hget] at h
      injection h with h1 h2
      exact Or.inl h1.symm
    | some room =>
      simp only [hget] at h
      injection h with h1 h2
      exact Or.inr ⟨rid, room, rfl, hget, h1.symm⟩

theorem generateRoomId_not_has (rooms : RoomMap) (attempts : List Attempt)
    (rid : String) (h : generateRoomId rooms attempts = some rid) :
    mapHas rooms rid = false := by
  induction attempts with
  | nil => simp [generateRoomId] at h
  | cons a rest ih =>
    simp only [generateRoomId] at h
    by_cases hh : mapHas rooms ⟨genOnce a⟩
    · rw [if_pos hh] at h
      exact ih h
    · rw [if_neg hh] at h
      obtain rfl : (⟨genOnce a⟩ : String) = rid := by injection h
      simpa using hh

theorem handleCreateRoom_cases (st : ServerState) (conn : Nat) (rand : Rand)
    (now : String) (st2 : ServerState) (outs : List Send)
    (h : handleCreateRoom st conn rand now = Except.ok (st2, outs)) :
    ∃ rid, generateRoomId st.rooms rand.roomAttempts = some rid ∧
      mapHas st.rooms rid = false ∧
      outs = [⟨conn, OutMsg.roomCreated rid (generateUserId rand.userDigits)⟩] ∧
      st2 = { allSockets :=
                st.allSockets ++ [⟨conn, rid, generateUserId rand.userDigits⟩],
              rooms := mapSet st.rooms rid
                ⟨rid, [⟨conn, rid, generateUserId rand.userDigits⟩], now⟩ } := by
  rw [handleCreateRoom] at h
  cases hg : generateRoomId st.rooms rand.roomAttempts with
  | none =>
    simp only [hg] at h
    exact Except.noConfusion h
  | some rid =>
    simp only [hg] at h
    injection h with h2
    injection h2 with h3 h4
    exact ⟨rid, rfl, generateRoomId_not_has _ _ _ hg, h4.symm, h3.symm⟩

theorem handleMessage_ok_cases (st : ServerState) (conn : Nat) (inb : Inbound)
    (rand : Rand) (now : String) (st2 : ServerState) (outs : List Send)
    (h : handleMessage st conn inb rand now = Except.ok (st2, outs)) :
    st2 = st ∨
    (isBindMsg inb = true ∧ ∃ rid room2, room2.users ≠ [] ∧
      st2 = { allSockets :=
                st.allSockets ++ [⟨conn, rid, generateUserId rand.userDigits⟩],
              rooms := mapSet st.rooms rid room2 }) := by
  cases inb with
  | notJson => exact absurd h (by simp [handleMessage])
  | obj ty payload =>
    simp only [handleMessage] at h
    by_cases h1 : ty = some "createRoom"
    · rw [if_pos h1] at h
      obtain ⟨rid, -, -, -, hst⟩ := handleCreateRoom_cases st conn rand now st2 outs h
      right
      exact ⟨by simp [isBindMsg, h1], rid,
        ⟨rid, [⟨conn, rid, generateUserId rand.userDigits⟩], now⟩, by simp, hst⟩
    · rw [if_neg h1] at h
      by_cases h2 : ty = some "joinRoom"
      · rw [if_pos h2] at h
        cases payload with
        | none => exact Except.noConfusion h
        | some p =>
          have h3 : handleJoinRoom st conn p rand = (st2, outs) := Except.ok.inj h
          rcases handleJoinRoom_cases st conn p rand st2 outs h3 with h5 | ⟨rid, room, -, -, hst⟩
          · exact Or.inl h5
          · right
            refine ⟨by simp [isBindMsg, h2], rid,
              { room with users :=
                  room.users ++ [⟨conn, rid, generateUserId rand.userDigits⟩] },
              by simp, hst⟩
      · rw [if_neg h2] at h
        by_cases h3 : ty = some "chat"
        · rw [if_pos h3] at h
          cases payload with
          | none => exact Except.noConfusion h
          | some p =>
            left
            have h4 : handleChat st conn p now = (st2, outs) := Except.ok.inj h
            exact (congrArg Prod.fst h4).symm.trans (handleChat_fst st conn p now)
        · rw [if_neg h3] at h
          left
          have h4 : (st, ([] : List Send)) = (st2, outs) := Except.ok.inj h
          exact (congrArg Prod.fst h4).symm

theorem handleClose_cases (st : ServerState) (conn : Nat) (st2 : ServerState)
    (outs : List Send) (h : handleClose st conn = (st2, outs)) :
    st2 = st ∨
    (∃ u rest, findRemove (fun w => w.socket == conn) st.allSockets = some (u, rest) ∧
      st2.allSockets = rest ∧
      (st2.rooms = st.rooms ∨
       (∃ room remaining, mapGet st.rooms u.room = some room ∧ remaining ≠ [] ∧
         st2.rooms = mapSet st.rooms u.room { room with users := remaining }) ∨
       st2.rooms = mapDelete st.rooms u.room)) := by
  rw [handleClose] at h
  cases hfind : findRemove (fun u => u.socket == conn) st.allSockets with
  | none =>
    simp only [hfind] at h
    injection h with h1 h2
    exact Or.inl h1.symm
  | some pr =>
    obtain ⟨user, restSockets⟩ := pr
    simp only [hfind] at h
    cases hget : mapGet st.rooms user.room with
    | none =>
      simp only [hget] at h
      injection h with h1 h2
      exact Or.inr ⟨user, restSockets, rfl, by rw [← h1], Or.inl (by rw [← h1])⟩
    | some room =>
      simp only [hget] at h
      cases hrm : findRemove (fun u => u.socket == conn) room.users with
      | none =>
        simp only [hrm] at h
        injection h with h1 h2
        exact Or.inr ⟨user, restSockets, rfl, by rw [← h1], Or.inl (by rw [← h1])⟩
      | some pr2 =>
        obtain ⟨gone, remaining⟩ := pr2
        simp only [hrm] at h
        by_cases hemp : remaining.isEmpty
        · rw [if_pos hemp] at h
          injection h with h1 h2
          exact Or.inr ⟨user, restSockets, rfl, by rw [← h1],
            Or.inr (Or.inr (by rw [← h1]))⟩
        · rw [if_neg hemp] at h
          injection h with h1 h2
          refine Or.inr ⟨user, restSockets, rfl, by rw [← h1],
            Or.inr (Or.inl ⟨room, remaining, hget, ?_, by rw [← h1]⟩)⟩
          intro hnil
          rw [hnil] at hemp
          exact hemp rfl

/-! ### Room identifier generator lemmas -/

theorem fix_length {l : List Char} {c : Char} (b : Bool) (h : l.length = 8) :
    (if b then l else l.drop 1 ++ [c]).length = 8 := by
  cases b
  · simp [h]
  · simpa using h

theorem genOnce_length (a : Attempt) : (genOnce a).length = 8 := by
  rw [genOnce]
  exact fix_length _ (fix_length _ (fix_length _ (by simp)))

theorem isRoomIdChar_charAt (n : Nat) : isRoomIdChar (charAt n) = true := by
  by_cases h : n < 62
  · exact (by decide : ∀ m, m < 62 → isRoomIdChar (charAt m) = true) n h
  · rw [charAt, List.getD_eq_default]
    · rfl
    · rw [show roomChars.length = 62 from rfl]
      omega

theorem fix_chars {l : List Char} {c : Char} (b : Bool)
    (hl : ∀ x ∈ l, isRoomIdChar x = true) (hc : isRoomIdChar c = true) :
    ∀ x ∈ (if b then l else l.drop 1 ++ [c]), isRoomIdChar x = true := by
  cases b
  · intro x hx
    rw [if_neg (by simp)] at hx
    rcases List.mem_append.1 hx with h1 | h1
    · exact hl x (List.drop_subset _ _ h1)
    · rw [List.mem_singleton.1 h1]
      exact hc
  · intro x hx
    rw [if_pos (by simp)] at hx
    exact hl x hx

theorem genOnce_chars (a : Attempt) : ∀ x ∈ genOnce a, isRoomIdChar x = true := by
  rw [genOnce]
  refine fix_chars _ (fix_chars _ (fix_chars _ ?_ (isRoomIdChar_charAt _))
    (isRoomIdChar_charAt _)) (isRoomIdChar_charAt _)
  intro x hx
  simp only [List.mem_map] at hx
  obtain ⟨i, -, rfl⟩ := hx
  exact isRoomIdChar_charAt _

theorem generateRoomId_length (rooms : RoomMap) (attempts : List Attempt)
    (rid : String) (h : generateRoomId rooms attempts = some rid) :
    rid.length = 8 := by
  induction attempts with
  | nil => simp [generateRoomId] at h
  | cons a rest ih =>
    simp only [generateRoomId] at h
    by_cases hh : mapHas rooms ⟨genOnce a⟩
    · rw [if_pos hh] at h
      exact ih h
    · rw [if_neg hh] at h
      obtain rfl : (⟨genOnce a⟩ : String) = rid := by injection h
      exact genOnce_length a

theorem generateRoomId_chars (rooms : RoomMap) (attempts : List Attempt)
    (rid : String) (h : generateRoomId rooms attempts = some rid) :
    rid.toList.all isRoomIdChar = true := by
  induction attempts with
  | nil => simp [generateRoomId] at h
  | cons a rest ih =>
    simp only [generateRoomId] at h
    by_cases hh : mapHas rooms ⟨genOnce a⟩
    · rw [if_pos hh] at h
      exact ih h
    · rw [if_neg hh] at h
      obtain rfl : (⟨genOnce a⟩ : String) = rid := by injection h
      rw [show (⟨genOnce a⟩ : String).toList = genOnce a from rfl]
      rw [List.all_eq_true]
      exact genOnce_chars a

/-! ### Sequences of createRoom calls -/

theorem runCreates_spec (l : List (Rand × Nat × String)) (st : ServerState) :
    (∀ k, mapHas st.rooms k = true → mapHas (runCreates st l).1.rooms k = true) ∧
    (runCreates st l).2.Nodup ∧
    (∀ rid ∈ (runCreates st l).2,
      mapHas st.rooms rid = false ∧ mapHas (runCreates st l).1.rooms rid = true) := by
  induction l generalizing st with
  | nil => simp [runCreates]
  | cons trip rest ih =>
    obtain ⟨r, conn, now⟩ := trip
    rw [runCreates]
    cases hmsg : handleMessage st conn (Inbound.obj (some "createRoom") none) r now with
    | error e => exact ih st
    | ok pr =>
      obtain ⟨st2, outs⟩ := pr
      obtain ⟨rid, hg, hhas, houts, hst2⟩ :=
        handleCreateRoom_cases st conn r now st2 outs hmsg
      have hcid : createdIds outs = [rid] := by rw [houts]; rfl
      have ih2 := ih st2
      have hrooms2 : st2.rooms = mapSet st.rooms rid
          ⟨rid, [⟨conn, rid, generateUserId r.userDigits⟩], now⟩ := by rw [hst2]
      have hmono : ∀ k, mapHas st.rooms k = true → mapHas st2.rooms k = true := by
        intro k hk
        rw [hrooms2, mapHas_mapSet, hk, Bool.or_true]
      have hrid2 : mapHas st2.rooms rid = true := by
        rw [hrooms2, mapHas_mapSet, beq_self_eq_true, Bool.true_or]
      simp only [hcid]
      refine ⟨?_, ?_, ?_⟩
      · intro k hk
        exact ih2.1 k (hmono k hk)
      · rw [List.cons_append, List.nil_append, List.nodup_cons]
        refine ⟨fun hmem => ?_, ih2.2.1⟩
        have := (ih2.2.2 rid hmem).1
        rw [hrid2] at this
        exact Bool.noConfusion this
      · intro rid2 hmem
        rw [List.cons_append, List.nil_append, List.mem_cons] at hmem
        rcases hmem with rfl | hmem
        · exact ⟨hhas, ih2.1 rid2 hrid2⟩
        · obtain ⟨hf, ht⟩ := ih2.2.2 rid2 hmem
          refine ⟨?_, ht⟩
          rw [hrooms2, mapHas_mapSet] at hf
          exact (Bool.or_eq_false_iff.1 hf).2

/-! ### Registry invariant: registered rooms are never empty -/

theorem roomsWF_initial : roomsWF initialState := by
  constructor
  · simp [keysNodup, mapKeys, initialState]
  · intro k r h
    simp [initialState, mapGet] at h

theorem roomsMapWF_mapSet {m : RoomMap} (k : String) (v : Room)
    (hwf : roomsMapWF m) (hv : v.users ≠ []) : roomsMapWF (mapSet m k v) := by
  refine ⟨keysNodup_mapSet m k v hwf.1, fun k2 r hk => ?_⟩
  by_cases hkr : k2 = k
  · subst hkr
    rw [mapGet_mapSet_self] at hk
    injection hk with h2
    rw [← h2]
    exact hv
  · rw [mapGet_mapSet_ne _ _ _ _ hkr] at hk
    exact hwf.2 k2 r hk

theorem roomsMapWF_mapDelete {m : RoomMap} (k : String) (hwf : roomsMapWF m) :
    roomsMapWF (mapDelete m k) := by
  refine ⟨keysNodup_mapDelete m k hwf.1, fun k2 r hk => ?_⟩
  by_cases hkr : k2 = k
  · subst hkr
    rw [mapGet_mapDelete_self m k2 hwf.1] at hk
    exact Option.noConfusion hk
  · rw [mapGet_mapDelete_ne m k k2 hkr] at hk
    exact hwf.2 k2 r hk

theorem roomsWF_handleMessage {st st2 : ServerState} {conn : Nat} {inb : Inbound}
    {rand : Rand} {now : String} {outs : List Send} (hwf : roomsWF st)
    (h : handleMessage st conn inb rand now = Except.ok (st2, outs)) :
    roomsWF st2 := by
  rcases handleMessage_ok_cases st conn inb rand now st2 outs h with
    rfl | ⟨-, rid, room2, hne, rfl⟩
  · exact hwf
  · exact roomsMapWF_mapSet rid room2 hwf hne

theorem roomsWF_handleClose {st : ServerState} (conn : Nat) (hwf : roomsWF st) :
    roomsWF (handleClose st conn).1 := by
  rcases handleClose_cases st conn (handleClose st conn).1 (handleClose st conn).2
      Prod.mk.eta.symm with heq | ⟨u, rest, -, -, hrooms⟩
  · rw [heq]
    exact hwf
  · rcases hrooms with heq | ⟨room, remaining, -, hne, heq⟩ | heq
    · rw [roomsWF, heq]
      exact hwf
    · rw [roomsWF, heq]
      exact roomsMapWF_mapSet _ _ hwf hne
    · rw [roomsWF, heq]
      exact roomsMapWF_mapDelete _ hwf

theorem roomsWF_stepEvent {st : ServerState} (e : Event) (hwf : roomsWF st) :
    roomsWF (stepEvent st e) := by
  cases e with
  | msg conn inb rand now =>
    rw [stepEvent]
    cases hmsg : handleMessage st conn inb rand now with
    | ok pr =>
      obtain ⟨st2, outs⟩ := pr
      exact roomsWF_handleMessage hwf hmsg
    | error e2 => exact hwf
  | close conn => exact roomsWF_handleClose conn hwf

theorem roomsWF_runEvents (evs : List Event) (st : ServerState) (hwf : roomsWF st) :
    roomsWF (runEvents st evs) := by
  induction evs generalizing st with
  | nil => exact hwf
  | cons e es ih => exact ih _ (roomsWF_stepEvent e hwf)

/-! ### Record counting for the at-most-one-record claim -/

theorem recordCount_step_msg {st st2 : ServerState} {conn2 conn : Nat}
    {inb : Inbound} {rand : Rand} {now : String} {outs : List Send}
    (h : handleMessage st conn2 inb rand now = Except.ok (st2, outs)) :
    recordCount conn st2 ≤ recordCount conn st +
      (if conn2 == conn && isBindMsg inb then 1 else 0) := by
  rcases handleMessage_ok_cases st conn2 inb rand now st2 outs h with
    rfl | ⟨hbind, rid, room2, -, rfl⟩
  · exact Nat.le_add_right _ _
  · rw [recordCount, recordCount]
    dsimp only
    rw [List.filter_append, List.length_append, hbind, Bool.and_true]
    cases hc : (conn2 == conn : Bool) with
    | false => simp [List.filter_cons, hc]
    | true => simp [List.filter_cons, hc]

theorem recordCount_step_close (st : ServerState) (conn2 conn : Nat) :
    recordCount conn (handleClose st conn2).1 ≤ recordCount conn st := by
  rcases handleClose_cases st conn2 (handleClose st conn2).1 (handleClose st conn2).2
      Prod.mk.eta.symm with heq | ⟨u, rest, hfind, hAS, -⟩
  · rw [heq]
  · rw [recordCount, recordCount, hAS]
    exact filter_length_le_of_findRemove hfind

theorem recordCount_runEvents (evs : List Event) (st : ServerState) (conn : Nat) :
    recordCount conn (runEvents st evs) ≤ recordCount conn st + bindRequests conn evs := by
  induction evs generalizing st with
  | nil => simp [runEvents, bindRequests]
  | cons e es ih =>
    rw [runEvents]
    refine le_trans (ih (stepEvent st e)) ?_
    cases e with
    | msg conn2 inb rand now =>
      rw [bindRequests]
      have hstep : recordCount conn (stepEvent st (Event.msg conn2 inb rand now))
          ≤ recordCount conn st + (if conn2 == conn && isBindMsg inb then 1 else 0) := by
        rw [stepEvent]
        cases hmsg : handleMessage st conn2 inb rand now with
        | ok pr =>
          obtain ⟨st2, outs⟩ := pr
          exact recordCount_step_msg hmsg
        | error e2 => exact Nat.le_add_right _ _
      generalize hc : (if conn2 == conn && isBindMsg inb then 1 else 0) = c at hstep ⊢
      omega
    | close conn2 =>
      rw [bindRequests]
      exact Nat.add_le_add_right (recordCount_step_close st conn2 conn) _

/-! ### User identifier generator lemmas -/

theorem isUserIdChar_base36Char (n : Nat) : isUserIdChar (base36Char n) = true := by
  rw [base36Char]
  exact (by decide : ∀ m, m < 36 → isUserIdChar (base36Chars.getD m '0') = true)
    (n % 36) (Nat.mod_lt _ (by decide))

theorem generateUserId_nil : generateUserId [] = "" := rfl

theorem generateUserId_cons (d : Nat) (ds : List Nat) :
    generateUserId (d :: ds) = ⟨((d :: ds).map base36Char).take 13⟩ := by
  rw [generateUserId, randToString36, jsSubstring]
  rw [if_neg (by simp)]
  rfl

theorem generateUserId_length (digits : List Nat) :
    (generateUserId digits).length ≤ 13 := by
  cases digits with
  | nil => rw [generateUserId_nil]; decide
  | cons d ds =>
    rw [generateUserId_cons]
    show (((d :: ds).map base36Char).take 13).length ≤ 13
    rw [List.length_take]
    exact min_le_left _ _

theorem generateUserId_chars (digits : List Nat) :
    (generateUserId digits).toList.all isUserIdChar = true := by
  cases digits with
  | nil => rfl
  | cons d ds =>
    rw [generateUserId_cons]
    show (((d :: ds).map base36Char).take 13).all isUserIdChar = true
    rw [List.all_eq_true]
    intro x hx
    have hx2 := List.take_subset _ _ hx
    simp only [List.mem_map] at hx2
    obtain ⟨n, -, rfl⟩ := hx2
    exact isUserIdChar_base36Char n

/-! ### Shared dispatch lemmas for the claims -/

theorem handleJoinRoom_absent (st : ServerState) (conn : Nat) (rid : String)
    (rand : Rand) (now : String) (h : mapGet st.rooms rid = none) :
    handleMessage st conn (joinMsg rid) rand now
      = Except.ok (st, [⟨conn, OutMsg.error "Room not found"⟩]) := by
  rw [show handleMessage st conn (joinMsg rid) rand now
      = Except.ok (handleJoinRoom st conn { roomId := some rid } rand) from rfl]
  rw [handleJoinRoom]
  dsimp only
  simp only [h]

/-! ### Claim theorems -/

/-- Claim C1 (code bug): the specification requires a payload that does not
parse as an envelope to be recovered locally, with the connection left
usable. The source has no try/catch around `JSON.parse` (line 56) nor around
the `payload` dereferences, so the embedded dispatcher throws instead of
returning: unparseable text raises the JSON parse exception, and a `joinRoom`
envelope without a payload raises a type error. In the Node runtime an
exception escaping the message handler terminates the process. This theorem
evaluates the code at those failing inputs. -/
theorem claim1_malformed_payload_throws :
    (∀ (st : ServerState) (conn : Nat) (rand : Rand) (now : String),
      handleMessage st conn Inbound.notJson rand now
        = Except.error JsError.jsonParseError) ∧
    (∀ (st : ServerState) (conn : Nat) (rand : Rand) (now : String),
      handleMessage st conn (Inbound.obj (some "joinRoom") none) rand now
        = Except.error JsError.typeError) :=
  ⟨fun _ _ _ _ => rfl, fun _ _ _ _ => rfl⟩

/-- Claim C2: a joinRoom envelope naming a room identifier that is not a key
of the rooms map fails with exactly one error envelope, carrying the message
"Room not found", sent to the caller; the registry is returned unchanged, so
the rooms map, the allSockets collection and every member list are untouched
and nothing is broadcast. -/
theorem claim2_join_absent_room_not_found (st : ServerState) (conn : Nat)
    (rid : String) (rand : Rand) (now : String)
    (h : mapHas st.rooms rid = false) :
    handleMessage st conn (joinMsg rid) rand now
      = Except.ok (st, [⟨conn, OutMsg.error "Room not found"⟩]) := by
  refine handleJoinRoom_absent st conn rid rand now ?_
  rw [mapHas_eq_isSome] at h
  cases hg : mapGet st.rooms rid with
  | none => rfl
  | some r =>
    rw [hg] at h
    exact absurd h (by simp)

/-- Witness for claim C2 at a concrete state and input. -/
theorem claim2_witness :
    handleMessage initialState 7 (joinMsg "NOROOM") noRand "t0"
      = Except.ok (initialState, [⟨7, OutMsg.error "Room not found"⟩]) :=
  claim2_join_absent_room_not_found initialState 7 "NOROOM" noRand "t0" (by decide)

/-- Claim C3: every identifier the room identifier generator returns is
exactly 8 characters long, drawn from the [A-Za-z0-9] alphabet, and is not a
key of the rooms map at the moment it is returned; consequently the
identifiers returned by any sequence of createRoom calls are pairwise
distinct, and all of them are still registered afterwards (createRoom never
removes a room). -/
theorem claim3_room_id_fresh_and_distinct :
    (∀ (rooms : RoomMap) (attempts : List Attempt) (rid : String),
      generateRoomId rooms attempts = some rid →
        rid.length = 8 ∧ rid.toList.all isRoomIdChar = true ∧
        mapHas rooms rid = false) ∧
    (∀ (st : ServerState) (l : List (Rand × Nat × String)),
      (runCreates st l).2.Nodup ∧
      ∀ rid ∈ (runCreates st l).2, mapHas (runCreates st l).1.rooms rid = true) :=
  ⟨fun rooms attempts rid h =>
    ⟨generateRoomId_length rooms attempts rid h,
     generateRoomId_chars rooms attempts rid h,
     generateRoomId_not_has rooms attempts rid h⟩,
   fun st l =>
    ⟨(runCreates_spec l st).2.1,
     fun rid hm => ((runCreates_spec l st).2.2 rid hm).2⟩⟩

/-- Witness for claim C3: a concrete generated identifier has the stated
shape and freshness, and the identifier returned by a concrete createRoom
run is registered afterwards. -/
theorem claim3_witness :
    (("AAAAAAa0" : String).length = 8 ∧
     ("AAAAAAa0" : String).toList.all isRoomIdChar = true ∧
     mapHas [] "AAAAAAa0" = false) ∧
    mapHas (runCreates initialState [(rand0, 0, "t0")]).1.rooms "AAAAAAa0" = true :=
  ⟨claim3_room_id_fresh_and_distinct.1 [] [attemptConst 0] "AAAAAAa0" (by decide),
   (claim3_room_id_fresh_and_distinct.2 initialState [(rand0, 0, "t0")]).2
     "AAAAAAa0" (by decide)⟩

/-- Counterexample to claim C4 as stated: nothing stops a connection from
sending joinRoom for the room it already occupies; the joiner is then one of
the current members, and it does receive a userJoined envelope, which the
claim rules out for every successful joinRoom. Here connection 0 created the
room "AAAAAAa0" and then joins it again. -/
theorem claim4_counterexample :
    (⟨0, OutMsg.userJoined 2⟩ : Send) ∈
      okOuts (handleMessage oneRoomState 0 (joinMsg "AAAAAAa0") noRand "t1") := by
  decide

/-- Claim C4 (amended): for every successful joinRoom on a room with N
current members, provided the joining connection is not already a member of
that room, each of the N pre-existing members receives exactly one userJoined
envelope carrying N + 1, computed from the member list before the new member
is appended; the joiner receives none of them, and the roomJoined envelope
sent to the joiner carries that same post-join count N + 1. -/
theorem claim4_join_notifications (st : ServerState) (conn : Nat) (rid : String)
    (room : Room) (rand : Rand) (now : String)
    (hroom : mapGet st.rooms rid = some room)
    (hnew : ∀ u ∈ room.users, u.socket ≠ conn) :
    handleMessage st conn (joinMsg rid) rand now =
      Except.ok
        ({ allSockets := st.allSockets ++
             [⟨conn, rid, generateUserId rand.userDigits⟩],
           rooms := mapSet st.rooms rid
             { room with users := room.users ++
                 [⟨conn, rid, generateUserId rand.userDigits⟩] } },
         (room.users.map (fun u =>
            (⟨u.socket, OutMsg.userJoined (room.users.length + 1)⟩ : Send)))
           ++ [⟨conn, OutMsg.roomJoined rid (generateUserId rand.userDigits)
                 (room.users.length + 1)⟩]) ∧
    (∀ s ∈ room.users.map (fun u =>
        (⟨u.socket, OutMsg.userJoined (room.users.length + 1)⟩ : Send)),
      s.dest ≠ conn) := by
  constructor
  · rw [show handleMessage st conn (joinMsg rid) rand now
        = Except.ok (handleJoinRoom st conn { roomId := some rid } rand) from rfl]
    rw [handleJoinRoom]
    dsimp only
    simp only [hroom]
    simp [List.length_append]
  · intro s hs
    simp only [List.mem_map] at hs
    obtain ⟨u, hu, rfl⟩ := hs
    exact hnew u hu

/-- Witness for the amended claim C4: connection 1 joins the one-member room
of connection 0. -/
theorem claim4_witness :
    handleMessage demoState 1 (joinMsg "AAAAAAa0") noRand "t1" =
      Except.ok
        ({ allSockets := demoState.allSockets ++
             [⟨1, "AAAAAAa0", generateUserId noRand.userDigits⟩],
           rooms := mapSet demoState.rooms "AAAAAAa0"
             { demoRoom with users := demoRoom.users ++
                 [⟨1, "AAAAAAa0", generateUserId noRand.userDigits⟩] } },
         (demoRoom.users.map (fun u =>
            (⟨u.socket, OutMsg.userJoined (demoRoom.users.length + 1)⟩ : Send)))
           ++ [⟨1, OutMsg.roomJoined "AAAAAAa0" (generateUserId noRand.userDigits)
                 (demoRoom.users.length + 1)⟩]) ∧
    (∀ s ∈ demoRoom.users.map (fun u =>
        (⟨u.socket, OutMsg.userJoined (demoRoom.users.length + 1)⟩ : Send)),
      s.dest ≠ 1) :=
  claim4_join_notifications demoState 1 "AAAAAAa0" demoRoom noRand "t1"
    (by decide) (by decide)

/-- Claim C5: a chat envelope from a connection whose Connection-User record
resolves to a registered room produces exactly one message envelope per
member of that room — the sender included — each carrying the unmodified
text, the sender userId and the current clock value, and every delivery goes
to a member of the room; the registry is unchanged. -/
theorem claim5_chat_broadcast (st : ServerState) (conn : Nat) (u : User)
    (room : Room) (text now : String) (rand : Rand)
    (hfind : st.allSockets.find? (fun w => w.socket == conn) = some u)
    (hne : u.room ≠ "")
    (hroom : mapGet st.rooms u.room = some room) :
    handleMessage st conn (chatMsg text) rand now
      = Except.ok (st, room.users.map (fun w =>
          (⟨w.socket, OutMsg.message (some text) u.userId now⟩ : Send))) ∧
    (room.users.map (fun w =>
        (⟨w.socket, OutMsg.message (some text) u.userId now⟩ : Send))).length
      = room.users.length ∧
    (∀ s ∈ room.users.map (fun w =>
        (⟨w.socket, OutMsg.message (some text) u.userId now⟩ : Send)),
      ∃ w, w ∈ room.users ∧ s.dest = w.socket) := by
  refine ⟨?_, by simp, ?_⟩
  · rw [show handleMessage st conn (chatMsg text) rand now
        = Except.ok (handleChat st conn { message := some text } now) from rfl]
    rw [handleChat]
    simp only [hfind]
    rw [if_pos hne]
    simp only [hroom]
  · intro s hs
    simp only [List.mem_map] at hs
    obtain ⟨w, hw, rfl⟩ := hs
    exact ⟨w, hw, rfl⟩

/-- Witness for claim C5: connection 0 chats in its one-member room. -/
theorem claim5_witness :
    handleMessage demoState 0 (chatMsg "hi") noRand "t9"
      = Except.ok (demoState, demoRoom.users.map (fun w =>
          (⟨w.socket, OutMsg.message (some "hi") demoUser.userId "t9"⟩ : Send))) ∧
    (demoRoom.users.map (fun w =>
        (⟨w.socket, OutMsg.message (some "hi") demoUser.userId "t9"⟩ : Send))).length
      = demoRoom.users.length ∧
    (∀ s ∈ demoRoom.users.map (fun w =>
        (⟨w.socket, OutMsg.message (some "hi") demoUser.userId "t9"⟩ : Send)),
      ∃ w, w ∈ demoRoom.users ∧ s.dest = w.socket) :=
  claim5_chat_broadcast demoState 0 demoUser demoRoom "hi" "t9" noRand
    (by decide) (by decide) (by decide)

/-- Claim C6: when a connection holding exactly one member record of a room
with N members (N at least 2, so the remainder is nonempty) closes, the
handler removes that record, leaves the room registered with the remaining
N - 1 members, and sends exactly one userLeft envelope carrying the
post-removal count N - 1 to each remaining member and none to the departing
connection. -/
theorem claim6_close_notifies_remaining (st : ServerState) (conn : Nat)
    (u : User) (rest : List User) (room : Room) (v : User) (remaining : List User)
    (hfind : findRemove (fun w => w.socket == conn) st.allSockets = some (u, rest))
    (hroom : mapGet st.rooms u.room = some room)
    (hrm : findRemove (fun w => w.socket == conn) room.users = some (v, remaining))
    (hne : remaining ≠ [])
    (honce : ∀ w ∈ remaining, w.socket ≠ conn) :
    handleClose st conn =
      ({ allSockets := rest,
         rooms := mapSet st.rooms u.room { room with users := remaining } },
       remaining.map (fun w =>
         (⟨w.socket, OutMsg.userLeft remaining.length⟩ : Send))) ∧
    remaining.length + 1 = room.users.length ∧
    (∀ s ∈ remaining.map (fun w =>
        (⟨w.socket, OutMsg.userLeft remaining.length⟩ : Send)), s.dest ≠ conn) := by
  refine ⟨?_, (findRemove_length hrm).symm, ?_⟩
  · rw [handleClose]
    simp only [hfind, hroom, hrm]
    rw [if_neg (fun hemp => hne (by simpa using hemp))]
  · intro s hs
    simp only [List.mem_map] at hs
    obtain ⟨w, hw, rfl⟩ := hs
    exact honce w hw

/-- Witness for claim C6: connection 0 leaves the two-member room, and
connection 1 is notified with the post-removal count 1. -/
theorem claim6_witness :
    handleClose demoState2 0 =
      ({ allSockets := [demoUser1],
         rooms := mapSet demoState2.rooms demoUser.room
           { demoRoom2 with users := [demoUser1] } },
       [demoUser1].map (fun w =>
         (⟨w.socket, OutMsg.userLeft ([demoUser1] : List User).length⟩ : Send))) ∧
    ([demoUser1] : List User).length + 1 = demoRoom2.users.length ∧
    (∀ s ∈ ([demoUser1] : List User).map (fun w =>
        (⟨w.socket, OutMsg.userLeft ([demoUser1] : List User).length⟩ : Send)),
      s.dest ≠ 0) :=
  claim6_close_notifies_remaining demoState2 0 demoUser [demoUser1] demoRoom2
    demoUser [demoUser1] (by decide) (by decide) (by decide) (by decide) (by decide)

/-- Claim C7: in every registry state reachable from the empty initial state
by any trace of dispatched messages and connection closes, every registered
room has a nonempty member list (the close handler deletes a room the moment
its member list empties), and a joinRoom for any identifier absent from the
rooms map fails with the "Room not found" error envelope and no state
change. -/
theorem claim7_rooms_never_empty (evs : List Event) (k : String) :
    (∀ r, mapGet (runEvents initialState evs).rooms k = some r → r.users ≠ []) ∧
    (mapGet (runEvents initialState evs).rooms k = none →
      ∀ (conn : Nat) (rand : Rand) (now : String),
        handleMessage (runEvents initialState evs) conn (joinMsg k) rand now
          = Except.ok (runEvents initialState evs,
              [⟨conn, OutMsg.error "Room not found"⟩])) := by
  constructor
  · intro r hr
    exact (roomsWF_runEvents evs initialState roomsWF_initial).2 k r hr
  · intro hnone conn rand now
    exact handleJoinRoom_absent _ conn k rand now hnone

/-- Witness for claim C7: after one createRoom the registered room is
nonempty, and joining an absent identifier fails. -/
theorem claim7_witness :
    ((⟨"AAAAAAa0", [⟨0, "AAAAAAa0", ""⟩], "t0"⟩ : Room).users ≠ []) ∧
    handleMessage (runEvents initialState [Event.msg 0 createMsg rand0 "t0"]) 5
        (joinMsg "ZZZZZZZZ") noRand "t2"
      = Except.ok (runEvents initialState [Event.msg 0 createMsg rand0 "t0"],
          [⟨5, OutMsg.error "Room not found"⟩]) :=
  ⟨(claim7_rooms_never_empty [Event.msg 0 createMsg rand0 "t0"] "AAAAAAa0").1
      ⟨"AAAAAAa0", [⟨0, "AAAAAAa0", ""⟩], "t0"⟩ (by decide),
   (claim7_rooms_never_empty [Event.msg 0 createMsg rand0 "t0"] "ZZZZZZZZ").2
      (by decide) 5 noRand "t2"⟩

/-- Counterexample to claim C8 as stated: two createRoom envelopes from the
same connection leave two Connection-User records for that connection, while
the claim says no sequence of createRoom/joinRoom envelopes from a single
connection can produce two records. -/
theorem claim8_counterexample :
    recordCount 0 (runEvents initialState
      [Event.msg 0 createMsg rand0 "t0", Event.msg 0 createMsg rand1 "t1"]) = 2 := by
  decide

/-- Claim C8 (amended): in every state reachable from the empty registry, a
connection holds at most as many Connection-User records as the number of
createRoom/joinRoom envelopes it has sent in the trace; in particular a
connection that sends at most one binding envelope has at most one record.
The unconditional claim fails because nothing guards a second bind. -/
theorem claim8_record_bound (evs : List Event) (conn : Nat) :
    recordCount conn (runEvents initialState evs) ≤ bindRequests conn evs := by
  have h := recordCount_runEvents evs initialState conn
  simpa [recordCount, initialState] using h

/-- Claim C9: a chat envelope from a connection that has no Connection-User
record, or whose recorded room is absent from the rooms map, is a silent
no-op: no envelope is sent to anyone and the registry is unchanged. -/
theorem claim9_chat_silent_noop (st : ServerState) (conn : Nat) (p : PayloadObj)
    (rand : Rand) (now : String)
    (h : st.allSockets.find? (fun w => w.socket == conn) = none ∨
      ∃ u, st.allSockets.find? (fun w => w.socket == conn) = some u ∧
        mapGet st.rooms u.room = none) :
    handleMessage st conn (Inbound.obj (some "chat") (some p)) rand now
      = Except.ok (st, []) := by
  rw [show handleMessage st conn (Inbound.obj (some "chat") (some p)) rand now
      = Except.ok (handleChat st conn p now) from rfl]
  rw [handleChat]
  rcases h with h | ⟨u, hfind, hnone⟩
  · simp only [h]
  · simp only [hfind]
    by_cases hr : u.room ≠ ""
    · rw [if_pos hr]
      simp only [hnone]
    · rw [if_neg hr]

/-- Witness for claim C9: a chat on the empty registry is a silent no-op. -/
theorem claim9_witness :
    handleMessage initialState 3
        (Inbound.obj (some "chat") (some { message := some "hi" })) noRand "t0"
      = Except.ok (initialState, []) :=
  claim9_chat_silent_noop initialState 3 { message := some "hi" } noRand "t0"
    (Or.inl (by decide))

/-- Claim C10: the user identifier generator always returns at most 13
characters, all from [a-z0-9], and guarantees no minimum length: the base-36
rendering is truncated and never padded, so a zero draw gives the empty
string and a one-digit fraction gives a single character. -/
theorem claim10_user_id_shape :
    (∀ digits : List Nat, (generateUserId digits).length ≤ 13 ∧
      (generateUserId digits).toList.all isUserIdChar = true) ∧
    generateUserId [] = "" ∧ (generateUserId [5]).length = 1 :=
  ⟨fun digits => ⟨generateUserId_length digits, generateUserId_chars digits⟩,
   rfl, rfl⟩

end ChatRoom
